import Mathlib

/-!
Shallow embedding of the streaming Arrow table iterator defined in
src/ArrowTableIterator.hpp (transformer framework, metadata filter,
streamed backend, row proxy, row iterator, table view), together with
theorems settling the specification claims about it.

Modelling conventions:
* Machine integers (int64_t row indices) are modelled as Int; Arrow row
  counts (always non-negative) as Nat.
* Arrow native storage values are modelled by the closed sum CValue with
  a tag CTag per native storage kind.  IEEE doubles are carried opaquely
  as their bit patterns (the embedded code only moves them around via
  identity transforms and scalar reads, never computes with them).
* Fallible operations return Option: none models a null pointer, an
  error Status, or an access that the source leaves undefined, as
  documented at each definition.
-/

/-- Native storage kind of an Arrow column, as used by the identity
transformers of the source (Int32Type, DoubleType, BooleanType,
StringType). -/
inductive CTag
  | int32
  | float64
  | boolean
  | string
deriving DecidableEq, Repr

/-- A native storage value.  The float64 payload is the opaque bit
pattern of the stored double; no arithmetic is ever performed on it by
the embedded code. -/
inductive CValue
  | int32 (v : Int)
  | float64 (bits : Int)
  | boolean (v : Bool)
  | string (v : String)
deriving DecidableEq, Repr

/-- The native storage kind a value belongs to. -/
def CValue.tag : CValue → CTag
  | .int32 _ => .int32
  | .float64 _ => .float64
  | .boolean _ => .boolean
  | .string _ => .string

/-- One Arrow column of a record batch: its actual native storage type
and its stored values. -/
structure Column where
  tag : CTag
  values : List CValue
deriving DecidableEq, Repr

/-- Every stored value of the column actually has the storage kind the
column declares (the Arrow invariant for typed arrays). -/
def Column.WellTyped (c : Column) : Prop :=
  ∀ v ∈ c.values, v.tag = c.tag

/-- An Arrow schema, reduced to the part the embedded code reads: the
optional key/value metadata map (arrow::KeyValueMetadata).  The
structural field list is never consulted by any embedded operation, so
it is not modelled. -/
structure Schema where
  metadata : Option (List (String × String))
deriving DecidableEq, Repr

/-- An arrow::RecordBatch: its schema, its columns, and its stored row
count (num_rows).  Well-formed batches have every column of length
num_rows; the iterator itself only reads num_rows and the schema. -/
structure Batch where
  schema : Schema
  columns : List Column
  num_rows : Nat
deriving DecidableEq, Repr

/-- All columns of the batch have exactly num_rows values (the Arrow
invariant for record batches). -/
def Batch.WellFormed (b : Batch) : Prop :=
  ∀ c ∈ b.columns, c.values.length = b.num_rows

/-- arrow::KeyValueMetadata::Get — linear scan of the key list, value of
the first matching key, error (none) when the key is absent. -/
def mdGet : List (String × String) → String → Option String
  | [], _ => none
  | (k, v) :: rest, key => if k == key then some v else mdGet rest key

/-- MetadataFilter<Key, Value>::check from the source:
`md && md->Get(key).ValueOr("") == value`.  A null metadata map gives
false (the conjunction short-circuits); otherwise the result of Get,
with the empty string substituted when the key is absent, is compared
to the expected value. -/
def MetadataFilter.check (key val : String) (schema : Schema)
    (_b : Batch) (_i : Int) : Bool :=
  match schema.metadata with
  | none => false
  | some md => (mdGet md key).getD "" == val

/-- AllowAll::check from the source: always true. -/
def AllowAll.check (_schema : Schema) (_b : Batch) (_i : Int) : Bool :=
  true

/-- One outcome of FlightStreamReader::Next(): either an ok Result whose
chunk holds a batch or a null chunk (end of stream), or an error
Status. -/
inductive FlightResult
  | ok (chunk : Option Batch)
  | err (msg : String)
deriving DecidableEq, Repr

/-- StreamedBackend::next_batch from the source, over the pending
outcomes of the wrapped reader:
`if (res.ok() && res.ValueUnsafe()) return res.ValueUnsafe(); return nullptr;`
An ok Result carrying a batch yields that batch; an ok Result with a
null chunk (end of stream) and an error Status both yield the null
pointer.  An exhausted reader (no pending outcomes) keeps yielding
null. -/
def StreamedBackend.next_batch :
    List FlightResult → Option Batch × List FlightResult
  | [] => (none, [])
  | .ok (some b) :: rest => (some b, rest)
  | .ok none :: rest => (none, rest)
  | .err _ :: rest => (none, rest)

/-- A generic well-behaved Backend for the RowIterator template: its
next_batch yields each remaining batch in turn and then null forever.
This models a backend whose reads all succeed; StreamedBackend is the
concrete instantiation over flight results. -/
def Backend.next_batch : List Batch → Option Batch × List Batch
  | [] => (none, [])
  | b :: rest => (some b, rest)

/-- A value-level stand-in for one instantiation of the CRTP Transformer
template: the Arrow native type it declares (arrow_type) and its forward
conversion.  Both native and user values live in CValue. -/
structure Transformer where
  arrow_type : CTag
  forward : CValue → CValue

/-- IdentityInt32 from the source: declares Int32Type, forward is the
identity. -/
def IdentityInt32 : Transformer := ⟨.int32, fun v => v⟩

/-- IdentityDouble from the source: declares DoubleType, forward is the
identity. -/
def IdentityDouble : Transformer := ⟨.float64, fun v => v⟩

/-- IdentityBoolean from the source: declares BooleanType, forward is
the identity. -/
def IdentityBoolean : Transformer := ⟨.boolean, fun v => v⟩

/-- IdentityString from the source: declares StringType, forward is the
identity. -/
def IdentityString : Transformer := ⟨.string, fun v => v⟩

/-- TransformerList<Ts...>::append<New> = TransformerList<Ts..., New>:
the new entry goes strictly at the end, the existing ones keep their
positions. -/
def TransformerList.append (ts : List Transformer) (t : Transformer) :
    List Transformer :=
  ts ++ [t]

/-- TransformerAt<List, N>: positional lookup by template recursion.
The head matches index 0, otherwise recurse on the tail with N-1.  For
an index at or beyond the list length no specialization matches and the
lookup is ill-formed (a compile-time error in the source), modelled as
none. -/
def TransformerAt : List Transformer → Nat → Option Transformer
  | [], _ => none
  | h :: _, 0 => some h
  | _ :: t, n + 1 => TransformerAt t n

/-- Zero value of a native storage kind, used to pin down the otherwise
unspecified result of reading a column through a wrongly-cast array
view. -/
def CTag.defaultOf : CTag → CValue
  | .int32 => .int32 0
  | .float64 => .float64 0
  | .boolean => .boolean false
  | .string => .string ""

/-- Models `std::static_pointer_cast<ArrayType>(col)->Value(row_)` (and
the GetString variant for strings): the column is cast, without any type
check, to the array type the transformer declares, and the element at
the row is read.  When the declared type matches the actual storage
type of the element this reads the stored value; when it does not, the
source reinterprets the underlying buffer and the result is
unspecified — the model pins it to the zero value of the declared type
(no claim depends on which value comes out, only that a value of the
declared type comes out with no error).  A negative or out-of-bounds
row index is undefined in the source and modelled as none. -/
def castRead (declared : CTag) (col : Column) (row : Int) : Option CValue :=
  if 0 ≤ row then
    (col.values[row.toNat]?).map
      (fun v => if v.tag == declared then v else declared.defaultOf)
  else none

/-- RowProxy::get<I> from the source: resolve TransformerAt (none models
the compile-time failure when I is at or beyond the list length), fetch
column I (none models the out-of-range column access, undefined in the
source), read the native value through the declared array type of the
transformer, and apply forward. -/
def RowProxy.get (ts : List Transformer) (b : Batch) (row : Int)
    (i : Nat) : Option CValue :=
  match TransformerAt ts i with
  | none => none
  | some tr =>
    match b.columns[i]? with
    | none => none
    | some col => (castRead tr.arrow_type col row).map tr.forward

/-- arrow::Array::GetScalar(row): a Result that is ok with the element
for a valid index and an error Status otherwise. -/
def getScalar (c : Column) (row : Int) : Option CValue :=
  if 0 ≤ row then c.values[row.toNat]? else none

/-- The loop body of RowProxy::receive_all: for i from the transformer
count up to num_columns, GetScalar the element and push it when the
Result is ok, silently skipping failures. -/
def receive_all_loop (b : Batch) (row : Int) (i : Nat) : List CValue :=
  if h : i < b.columns.length then
    match getScalar (b.columns.get ⟨i, h⟩) row with
    | some s => s :: receive_all_loop b row (i + 1)
    | none => receive_all_loop b row (i + 1)
  else []
termination_by b.columns.length - i

/-- RowProxy::receive_all from the source: collect the scalars of every
column at index ≥ the length of the transformer list. -/
def RowProxy.receive_all (ts : List Transformer) (b : Batch)
    (row : Int) : List CValue :=
  receive_all_loop b row ts.length

/-- The cursor state of RowIterator<Backend, ...> instantiated at the
generic list Backend: the remaining batches of the backend, the current
batch (none models the null shared_ptr), and the int64_t row index with
-1 as the end sentinel. -/
structure RowIterator where
  batches : List Batch
  batch : Option Batch
  row_idx : Int
deriving DecidableEq, Repr

/-- RowIterator::advance_row from the source, as a recursion over the
state of its while loop:

  while (batch_) \x7b
      if (row_idx_ < batch_->num_rows() && MetaChecker::check(...)) return;
      if (++row_idx_ >= batch_->num_rows()) advance_batch();
  \x7d
  row_idx_ = -1;

advance_batch pulls the next batch of the backend and resets the index
to 0; a null pull makes the loop exit with the -1 sentinel. -/
def advance_row_loop (check : Schema → Batch → Int → Bool) :
    List Batch → Option Batch → Int → RowIterator
  | src, none, _ => ⟨src, none, -1⟩
  | src, some b, idx =>
    if decide (idx < (b.num_rows : Int)) && check b.schema b idx then
      ⟨src, some b, idx⟩
    else if (b.num_rows : Int) ≤ idx + 1 then
      match src with
      | [] => ⟨[], none, -1⟩
      | b2 :: rest => advance_row_loop check rest (some b2) 0
    else advance_row_loop check src (some b) (idx + 1)
termination_by src cur idx =>
  (src.length,
   (match cur with
    | none => 0
    | some b => ((b.num_rows : Int) - idx).toNat))
decreasing_by
  all_goals simp_wf
  · apply Prod.Lex.left
    simp
  · apply Prod.Lex.right
    omega

/-- RowIterator::operator++ / advance_row applied to an iterator state:
note that it scans from the current index without incrementing it
first. -/
def RowIterator.advance_row (check : Schema → Batch → Int → Bool)
    (it : RowIterator) : RowIterator :=
  advance_row_loop check it.batches it.batch it.row_idx

/-- The RowIterator constructor with end = false (TableView::begin):
advance_batch (pull the first batch, index 0) followed by
advance_row. -/
def RowIterator.begin (check : Schema → Batch → Int → Bool)
    (src : List Batch) : RowIterator :=
  let p := Backend.next_batch src
  advance_row_loop check p.2 p.1 0

/-- The RowIterator constructor with end = true (TableView::end): null
batch and the -1 sentinel. -/
def RowIterator.endIt (src : List Batch) : RowIterator :=
  ⟨src, none, -1⟩

/-- Negation of operator!= against the end iterator: operator!= compares
the row index and the raw batch pointers, and the end iterator has the
-1 sentinel and a null batch, so an iterator equals end exactly when its
row index is -1 and its batch is null. -/
def RowIterator.atEnd (it : RowIterator) : Bool :=
  it.row_idx == -1 && it.batch.isNone

/-- The positions (current batch, current row index) visited by a
range-for loop over the view, taking at most fuel steps: while the
iterator differs from end, dereference it and apply operator++. -/
def RowIterator.positions (check : Schema → Batch → Int → Bool) :
    Nat → RowIterator → List (Option Batch × Int)
  | 0, _ => []
  | n + 1, it =>
    if it.atEnd then []
    else (it.batch, it.row_idx) ::
      RowIterator.positions check n (it.advance_row check)

/-- The cursor state of RowIterator<StreamedBackend, ...>: as
RowIterator, but the backend state is the list of pending reader
outcomes. -/
structure StreamedRowIterator where
  batches : List FlightResult
  batch : Option Batch
  row_idx : Int
deriving DecidableEq, Repr

/-- advance_row of RowIterator<StreamedBackend, ...>: the same while
loop, with advance_batch inlined through StreamedBackend::next_batch
(an ok pull carrying a batch installs it; an ok null chunk and an error
Status both install the null pointer, which makes the loop exit with
the -1 sentinel). -/
def advance_row_loopS (check : Schema → Batch → Int → Bool) :
    List FlightResult → Option Batch → Int → StreamedRowIterator
  | src, none, _ => ⟨src, none, -1⟩
  | src, some b, idx =>
    if decide (idx < (b.num_rows : Int)) && check b.schema b idx then
      ⟨src, some b, idx⟩
    else if (b.num_rows : Int) ≤ idx + 1 then
      match src with
      | [] => ⟨[], none, -1⟩
      | .ok (some b2) :: rest => advance_row_loopS check rest (some b2) 0
      | .ok none :: rest => ⟨rest, none, -1⟩
      | .err _ :: rest => ⟨rest, none, -1⟩
    else advance_row_loopS check src (some b) (idx + 1)
termination_by src cur idx =>
  (src.length,
   (match cur with
    | none => 0
    | some b => ((b.num_rows : Int) - idx).toNat))
decreasing_by
  all_goals simp_wf
  · apply Prod.Lex.left
    simp
  · apply Prod.Lex.right
    omega

/-- The RowIterator<StreamedBackend, ...> constructor with end = false:
advance_batch (one pull through StreamedBackend::next_batch, index 0)
followed by advance_row. -/
def StreamedRowIterator.begin (check : Schema → Batch → Int → Bool)
    (src : List FlightResult) : StreamedRowIterator :=
  let p := StreamedBackend.next_batch src
  advance_row_loopS check p.2 p.1 0

/-- Equality with the end iterator for the streamed instantiation. -/
def StreamedRowIterator.atEnd (it : StreamedRowIterator) : Bool :=
  it.row_idx == -1 && it.batch.isNone

/-- TableView<Backend, Transformers, MetaChecker> at the generic list
Backend: the shared backend, the transformer list and the checker. -/
structure TableView where
  backend : List Batch
  transformers : List Transformer
  check : Schema → Batch → Int → Bool

/-- TableView::addTransformer<New>: a new TableView over the same
backend and checker whose transformer list is append<New> of the
current one.  The receiver is const and untouched. -/
def TableView.addTransformer (v : TableView) (t : Transformer) : TableView :=
  { backend := v.backend
    transformers := TransformerList.append v.transformers t
    check := v.check }

/-! Concrete example data used by closed theorems and witnesses. -/

/-- Schema whose metadata maps the key process to true. -/
def exSchemaTrue : Schema := ⟨some [("process", "true")]⟩

/-- Schema whose metadata map exists but lacks the key process. -/
def exSchemaOther : Schema := ⟨some [("other", "x")]⟩

/-- Schema with a null metadata map. -/
def exSchemaNone : Schema := ⟨none⟩

/-- An int32 column holding the given values. -/
def exIntCol (vs : List Int) : Column := ⟨.int32, vs.map CValue.int32⟩

/-- A one-row batch whose single row passes any metadata filter keyed on
process = true. -/
def exBatchOne : Batch := ⟨exSchemaTrue, [exIntCol [7]], 1⟩

/-- Batch B1 of the traversal example: 3 rows. -/
def exB1 : Batch := ⟨exSchemaTrue, [exIntCol [1, 2, 3]], 3⟩

/-- Batch B2 of the traversal example: 0 rows. -/
def exB2 : Batch := ⟨exSchemaTrue, [exIntCol []], 0⟩

/-- Batch B3 of the traversal example: 2 rows. -/
def exB3 : Batch := ⟨exSchemaTrue, [exIntCol [4, 5]], 2⟩

/-- A boolean column, used as the mismatched actual type in the
type-mismatch example. -/
def exColBool : Column := ⟨.boolean, [.boolean true]⟩

/-- A batch whose first column is boolean, accessed below through a
transformer declaring int32. -/
def exBatchMM : Batch := ⟨exSchemaTrue, [exColBool], 1⟩

/-- A batch whose schema has no metadata map, so every metadata filter
rejects all of its rows. -/
def exBatchNoMeta : Batch := ⟨exSchemaNone, [exIntCol [1]], 1⟩

/-- A transformer schema of length 2. -/
def exTs2 : List Transformer := [IdentityInt32, IdentityDouble]

/-- A transformer schema of length 6, longer than any example batch is
wide. -/
def exTs6 : List Transformer :=
  [IdentityInt32, IdentityDouble, IdentityBoolean, IdentityString,
   IdentityInt32, IdentityDouble]

/-- A 4-column, 3-row batch matching the example table of the client
(int32, float64, boolean, string columns). -/
def exBatch4 : Batch :=
  ⟨exSchemaTrue,
   [exIntCol [1, 2, 3],
    ⟨.float64, [.float64 10, .float64 20, .float64 30]⟩,
    ⟨.boolean, [.boolean true, .boolean false, .boolean true]⟩,
    ⟨.string, [.string "a", .string "b", .string "c"]⟩], 3⟩

/-- A malformed batch whose second column is shorter than num_rows, so
its per-row scalar read fails. -/
def exBatchRagged : Batch := ⟨exSchemaTrue, [exIntCol [5], ⟨.int32, []⟩], 1⟩

/-- A concrete table view with a length-2 transformer schema. -/
def exView : TableView := ⟨[exB1], exTs2, AllowAll.check⟩

/-! Helper lemmas (shared between claims). -/

/-- Unfolding advance_row_loop at a null current batch: the loop body is
skipped and the index becomes the -1 sentinel. -/
theorem advance_row_loop_none (check : Schema → Batch → Int → Bool)
    (src : List Batch) (idx : Int) :
    advance_row_loop check src none idx = ⟨src, none, -1⟩ := by
  rw [advance_row_loop.eq_def]

/-- Unfolding advance_row_loop when the current row is in bounds and the
filter accepts it: the loop returns at once, leaving the state as it
is. -/
theorem advance_row_loop_accept (check : Schema → Batch → Int → Bool)
    (src : List Batch) (b : Batch) (idx : Int)
    (h : (decide (idx < (b.num_rows : Int)) && check b.schema b idx) = true) :
    advance_row_loop check src (some b) idx = ⟨src, some b, idx⟩ := by
  rw [advance_row_loop.eq_def]
  dsimp only
  rw [if_pos h]

/-- Unfolding advance_row_loop when the current row is rejected, the
incremented index leaves the batch, and the backend is exhausted. -/
theorem advance_row_loop_reject_nil (check : Schema → Batch → Int → Bool)
    (b : Batch) (idx : Int)
    (h : ¬(decide (idx < (b.num_rows : Int)) && check b.schema b idx) = true)
    (hge : (b.num_rows : Int) ≤ idx + 1) :
    advance_row_loop check [] (some b) idx = ⟨[], none, -1⟩ := by
  rw [advance_row_loop.eq_def]
  dsimp only
  rw [if_neg h, if_pos hge]

/-- Unfolding advance_row_loop when the current row is rejected, the
incremented index leaves the batch, and the backend has a next batch. -/
theorem advance_row_loop_reject_cons (check : Schema → Batch → Int → Bool)
    (b2 : Batch) (rest : List Batch) (b : Batch) (idx : Int)
    (h : ¬(decide (idx < (b.num_rows : Int)) && check b.schema b idx) = true)
    (hge : (b.num_rows : Int) ≤ idx + 1) :
    advance_row_loop check (b2 :: rest) (some b) idx =
      advance_row_loop check rest (some b2) 0 := by
  rw [advance_row_loop.eq_def]
  dsimp only
  rw [if_neg h, if_pos hge]

/-- Unfolding advance_row_loop when the current row is rejected and the
incremented index is still inside the batch. -/
theorem advance_row_loop_reject_step (check : Schema → Batch → Int → Bool)
    (src : List Batch) (b : Batch) (idx : Int)
    (h : ¬(decide (idx < (b.num_rows : Int)) && check b.schema b idx) = true)
    (hlt : ¬(b.num_rows : Int) ≤ idx + 1) :
    advance_row_loop check src (some b) idx =
      advance_row_loop check src (some b) (idx + 1) := by
  rw [advance_row_loop.eq_def]
  dsimp only
  rw [if_neg h, if_neg hlt]

/-- When the filter rejects every valid row of the current batch and of
every remaining batch, the scan consumes the whole backend and ends in
the exhausted state. -/
theorem advance_row_loop_all_fail (check : Schema → Batch → Int → Bool)
    (src : List Batch) (cur : Option Batch) (idx : Int) :
    0 ≤ idx →
    (∀ b ∈ src, ∀ i : Int, 0 ≤ i → i < (b.num_rows : Int) →
      check b.schema b i = false) →
    (∀ b, cur = some b → ∀ i : Int, 0 ≤ i → i < (b.num_rows : Int) →
      check b.schema b i = false) →
    advance_row_loop check src cur idx =
      ⟨(match cur with | none => src | some _ => []), none, -1⟩ := by
  induction src, cur, idx using advance_row_loop.induct check with
  | case1 src idx =>
    intro _ _ _
    exact advance_row_loop_none check src idx
  | case2 src b idx hpos =>
    intro h0 _ hcur
    exfalso
    simp only [Bool.and_eq_true, decide_eq_true_eq] at hpos
    have := hcur b rfl idx h0 hpos.1
    rw [this] at hpos
    exact Bool.false_ne_true hpos.2
  | case3 b idx hneg hge =>
    intro _ _ _
    exact advance_row_loop_reject_nil check b idx hneg hge
  | case4 b idx hneg hge b2 rest ih =>
    intro h0 hsrc _
    rw [advance_row_loop_reject_cons check b2 rest b idx hneg hge]
    exact ih (by omega)
      (fun b hb i hi hlt => hsrc b (List.mem_cons_of_mem _ hb) i hi hlt)
      (fun b hb i hi hlt => by
        cases hb
        exact hsrc b2 (List.mem_cons_self _ _) i hi hlt)
  | case5 src b idx hneg hlt ih =>
    intro h0 hsrc hcur
    rw [advance_row_loop_reject_step check src b idx hneg hlt]
    exact ih (by omega) hsrc hcur

/-- The template lookup agrees with positional list indexing. -/
theorem TransformerAt_eq_getElem? (ts : List Transformer) (i : Nat) :
    TransformerAt ts i = ts[i]? := by
  induction ts generalizing i with
  | nil => cases i <;> rfl
  | cons h t ih =>
    cases i with
    | zero => simp [TransformerAt]
    | succ n => simpa [TransformerAt] using ih n

/-- The template lookup has no matching specialization at or beyond the
list length. -/
theorem TransformerAt_eq_none (ts : List Transformer) (i : Nat)
    (h : ts.length ≤ i) : TransformerAt ts i = none := by
  rw [TransformerAt_eq_getElem?]
  exact List.getElem?_eq_none h

/-- get with an index at or beyond the transformer list length resolves
no transformer and produces no value (shared between claims). -/
theorem get_none_of_out_of_range (ts : List Transformer) (b : Batch)
    (row : Int) (i : Nat) (h : ts.length ≤ i) :
    RowProxy.get ts b row i = none := by
  simp [RowProxy.get, TransformerAt_eq_none ts i h]

/-- The receive_all loop collects exactly the successful scalar reads of
the column suffix it walks over. -/
theorem receive_all_loop_eq_filterMap (b : Batch) (row : Int) (i : Nat) :
    receive_all_loop b row i =
      (b.columns.drop i).filterMap (fun c => getScalar c row) := by
  induction i using receive_all_loop.induct b row with
  | case1 i h s hs ih =>
    rw [receive_all_loop]
    simp only [dif_pos h, hs]
    rw [List.drop_eq_getElem_cons h, List.filterMap_cons]
    simp only [List.get_eq_getElem] at hs
    rw [hs, ih]
  | case2 i h hs ih =>
    rw [receive_all_loop]
    simp only [dif_pos h, hs]
    rw [List.drop_eq_getElem_cons h, List.filterMap_cons]
    simp only [List.get_eq_getElem] at hs
    rw [hs, ih]
  | case3 i h =>
    rw [receive_all_loop]
    simp only [dif_neg h]
    rw [List.drop_eq_nil_of_le (by omega), List.filterMap_nil]

/-- filterMap indexes like bind when every application succeeds. -/
theorem filterMap_getElem?_of_isSome {α β : Type} (f : α → Option β)
    (l : List α) (hall : ∀ a ∈ l, (f a).isSome = true) (j : Nat) :
    (l.filterMap f)[j]? = l[j]?.bind f := by
  induction l generalizing j with
  | nil => simp
  | cons a t ih =>
    obtain ⟨v, hv⟩ := Option.isSome_iff_exists.mp (hall a (List.mem_cons_self a t))
    rw [List.filterMap_cons, hv]
    cases j with
    | zero => simp [hv]
    | succ n =>
      simp only [List.getElem?_cons_succ]
      exact ih (fun x hx => hall x (List.mem_cons_of_mem _ hx)) n

/-- filterMap preserves length when every application succeeds. -/
theorem filterMap_length_of_isSome {α β : Type} (f : α → Option β)
    (l : List α) (hall : ∀ a ∈ l, (f a).isSome = true) :
    (l.filterMap f).length = l.length := by
  induction l with
  | nil => simp
  | cons a t ih =>
    obtain ⟨v, hv⟩ := Option.isSome_iff_exists.mp (hall a (List.mem_cons_self a t))
    rw [List.filterMap_cons, hv]
    simp only [List.length_cons]
    rw [ih (fun x hx => hall x (List.mem_cons_of_mem _ hx))]

/-! Claim theorems. -/

/-- C1 (code bug): the spec says advance first increments the row index
and then scans, so that advance never leaves the sequence positioned at
the same (batch, row).  The code does not: operator++ calls advance_row
without incrementing, and advance_row returns at once when the current
row is in bounds and accepted, so advancing the iterator positioned at
row 0 of a one-row all-accepted batch yields the very same position
(and not the end state). -/
theorem advance_row_leaves_position_unchanged :
    RowIterator.begin AllowAll.check [exBatchOne] = ⟨[], some exBatchOne, 0⟩ ∧
    RowIterator.advance_row AllowAll.check ⟨[], some exBatchOne, 0⟩ =
      ⟨[], some exBatchOne, 0⟩ ∧
    (⟨[], some exBatchOne, 0⟩ : RowIterator).atEnd = false := by
  refine ⟨?_, ?_, rfl⟩ <;>
    simp [RowIterator.begin, RowIterator.advance_row, Backend.next_batch,
      advance_row_loop, AllowAll.check, exBatchOne]

/-- C2 (code bug): over a source yielding B1 (3 rows, all accepted),
B2 (0 rows), B3 (2 rows, all accepted), the claim expects the traversal
(B1,0), (B1,1), (B1,2), (B3,0), (B3,1) and then exhaustion.  Because
operator++ never moves past an accepted row, the range-for traversal
instead revisits (B1,0) forever: its first six visited positions are
all (B1,0), which differs from the claimed visit sequence. -/
theorem traversal_stuck_at_first_row :
    RowIterator.positions AllowAll.check 6
        (RowIterator.begin AllowAll.check [exB1, exB2, exB3]) =
      List.replicate 6 (some exB1, 0) ∧
    RowIterator.positions AllowAll.check 6
        (RowIterator.begin AllowAll.check [exB1, exB2, exB3]) ≠
      [(some exB1, 0), (some exB1, 1), (some exB1, 2),
       (some exB3, 0), (some exB3, 1)] := by
  have h : RowIterator.positions AllowAll.check 6
      (RowIterator.begin AllowAll.check [exB1, exB2, exB3]) =
      List.replicate 6 (some exB1, 0) := by
    simp [RowIterator.begin, Backend.next_batch, advance_row_loop,
      AllowAll.check, RowIterator.positions, RowIterator.atEnd,
      RowIterator.advance_row, exB1, List.replicate]
  refine ⟨h, ?_⟩
  rw [h]
  decide

/-- C3 (counterexample): a read error from the source is not
distinguishable from ordinary end-of-stream: StreamedBackend::next_batch
maps an error Status to exactly the same null marker it returns for a
normal end of stream, so no error reaches the caller of advance. -/
theorem next_batch_error_indistinguishable_from_end :
    StreamedBackend.next_batch [FlightResult.err "boom"] =
      StreamedBackend.next_batch [FlightResult.ok none] ∧
    StreamedBackend.next_batch [FlightResult.err "boom"] = (none, []) :=
  ⟨rfl, rfl⟩

/-- C3 (amended): when the Batch Source signals a read error during
batch retrieval, StreamedBackend::next_batch swallows it and returns
the end-of-stream marker (null), exactly as for an ok null chunk, and a
Row Sequence whose first pull errors is constructed already Exhausted;
the error is never surfaced, so a source failure is indistinguishable
from normal exhaustion. -/
theorem source_error_swallowed_as_exhaustion (msg : String)
    (rest : List FlightResult) (check : Schema → Batch → Int → Bool) :
    StreamedBackend.next_batch (FlightResult.err msg :: rest) = (none, rest) ∧
    StreamedBackend.next_batch (FlightResult.ok none :: rest) = (none, rest) ∧
    (StreamedRowIterator.begin check (FlightResult.err msg :: rest)).atEnd =
      true := by
  refine ⟨rfl, rfl, ?_⟩
  show (advance_row_loopS check rest none 0).atEnd = true
  rw [advance_row_loopS.eq_def]
  rfl

/-- C4 (counterexample): accessing a boolean column through a
transformer that declares int32 is not reported as a type-mismatch
failure: get returns a value (of the declared type) obtained by
unchecked reinterpretation. -/
theorem get_type_mismatch_returns_value :
    RowProxy.get [IdentityInt32] exBatchMM 0 0 = some (CValue.int32 0) ∧
    exColBool.tag ≠ IdentityInt32.arrow_type := by
  exact ⟨rfl, by decide⟩

/-- C4 (amended): get performs no type check: when the transformer at
position i declares a native type different from the actual native type
of column i, the in-bounds access still returns a value — the column is
read through the declared array type, yielding the (unspecified,
modelled as zero) reinterpreted native value passed through forward —
and no type-mismatch failure is reported. -/
theorem get_mismatch_reinterprets_without_error (ts : List Transformer)
    (b : Batch) (row : Int) (i : Nat) (tr : Transformer) (col : Column)
    (hts : TransformerAt ts i = some tr) (hcol : b.columns[i]? = some col)
    (hwt : col.WellTyped) (h0 : 0 ≤ row) (hr : row.toNat < col.values.length)
    (hne : col.tag ≠ tr.arrow_type) :
    RowProxy.get ts b row i = some (tr.forward tr.arrow_type.defaultOf) := by
  have hv : col.values[row.toNat]? = some col.values[row.toNat] :=
    List.getElem?_eq_getElem hr
  have htag : (col.values[row.toNat]).tag = col.tag :=
    hwt _ (List.getElem_mem hr)
  simp [RowProxy.get, hts, hcol, castRead, if_pos h0, hv, htag, hne]

/-- C4 (witness): the amended theorem applied to the concrete mismatch
example. -/
theorem get_mismatch_reinterprets_without_error_witness :
    RowProxy.get [IdentityInt32] exBatchMM 0 0 =
      some (IdentityInt32.forward IdentityInt32.arrow_type.defaultOf) :=
  get_mismatch_reinterprets_without_error [IdentityInt32] exBatchMM 0 0
    IdentityInt32 exColBool rfl rfl
    (by intro v hv; simp [exColBool] at hv; subst hv; rfl)
    (by decide) (by decide) (by decide)

/-- C5 (counterexample): the MetadataEquals filter with expected value
the empty string returns true on a schema whose metadata map exists but
does not contain the key at all, contradicting the claim that an absent
key always makes the filter false: the code compares
Get(key).ValueOr("") so the absent key is indistinguishable from an
empty stored value. -/
theorem metadata_filter_absent_key_passes_empty_expected :
    MetadataFilter.check "process" "" exSchemaOther exBatchOne 0 = true ∧
    mdGet [("other", "x")] "process" = none := by
  exact ⟨rfl, rfl⟩

/-- C5 (amended): MetadataEquals(key, expectedValue) is true iff the
metadata map is present and the value stored at key — defaulting to the
empty string when the key is absent — equals expectedValue.  For a
nonempty expectedValue this coincides with the claim (true iff the map
contains key with value exactly expectedValue; absent map, absent key
or different value give false and the batch yields no visible rows),
but when expectedValue is the empty string a present map lacking the
key also passes. -/
theorem metadata_filter_check_characterization (key val : String)
    (sch : Schema) (b : Batch) (i : Int) :
    (MetadataFilter.check key val sch b i = true ↔
      ∃ md, sch.metadata = some md ∧ (mdGet md key).getD "" = val) ∧
    (val ≠ "" →
      (MetadataFilter.check key val sch b i = true ↔
        ∃ md, sch.metadata = some md ∧ mdGet md key = some val)) := by
  constructor
  · cases hm : sch.metadata with
    | none => simp [MetadataFilter.check, hm]
    | some md => simp [MetadataFilter.check, hm]
  · intro hval
    cases hm : sch.metadata with
    | none => simp [MetadataFilter.check, hm]
    | some md =>
      simp only [MetadataFilter.check, hm]
      cases hg : mdGet md key with
      | none => simp [hg, Ne.symm hval]
      | some v => simp [hg]

/-- C5 (witness): the amended characterization applied at the concrete
filter MetadataEquals(process, true) on a schema carrying
process = true. -/
theorem metadata_filter_check_characterization_witness :
    MetadataFilter.check "process" "true" exSchemaTrue exBatchOne 0 = true :=
  ((metadata_filter_check_characterization "process" "true" exSchemaTrue
      exBatchOne 0).2 (by decide)).mpr ⟨[("process", "true")], rfl, rfl⟩

/-- C6: for a well-formed batch with C columns, a transformer schema of
length N ≤ C and a valid row index, receive_all returns exactly the
values of the C − N trailing columns (indices N through C−1), in the
original column order, and the empty sequence when N = C.  Freshness
per call holds trivially in the pure model: the result is recomputed
from the batch on every application. -/
theorem receive_all_returns_trailing_columns (ts : List Transformer)
    (b : Batch) (row : Int) (hwf : b.WellFormed)
    (_hn : ts.length ≤ b.columns.length) (h0 : 0 ≤ row)
    (hr : row < (b.num_rows : Int)) :
    (RowProxy.receive_all ts b row).length =
      b.columns.length - ts.length ∧
    (∀ j c, b.columns[ts.length + j]? = some c →
      (RowProxy.receive_all ts b row)[j]? = c.values[row.toNat]?) ∧
    (ts.length = b.columns.length → RowProxy.receive_all ts b row = []) := by
  have hsome : ∀ c ∈ b.columns.drop ts.length,
      (getScalar c row).isSome = true := by
    intro c hc
    have hlen := hwf c (List.mem_of_mem_drop hc)
    have hrow : row.toNat < c.values.length := by omega
    simp [getScalar, if_pos h0, List.getElem?_eq_getElem hrow]
  have heq : RowProxy.receive_all ts b row =
      (b.columns.drop ts.length).filterMap (fun c => getScalar c row) :=
    receive_all_loop_eq_filterMap b row ts.length
  refine ⟨?_, ?_, ?_⟩
  · rw [heq, filterMap_length_of_isSome _ _ hsome, List.length_drop]
  · intro j c hc
    rw [heq, filterMap_getElem?_of_isSome _ _ hsome j, List.getElem?_drop, hc]
    simp [getScalar, if_pos h0]
  · intro hcl
    rw [heq, List.drop_eq_nil_of_le (le_of_eq hcl.symm), List.filterMap_nil]

/-- C6 (witness): on the 4-column 3-row example batch with a length-2
transformer schema, receive_all yields exactly the 2 trailing column
values. -/
theorem receive_all_returns_trailing_columns_witness :
    (RowProxy.receive_all exTs2 exBatch4 0).length = 2 :=
  (receive_all_returns_trailing_columns exTs2 exBatch4 0
    (by intro c hc; fin_cases hc <;> rfl) (by decide) (by decide)
    (by decide)).1

/-- C7: append yields a schema one longer whose entries at positions
0..N−1 are the entries of the original schema in order, with the new
transformer strictly at position N; addTransformer builds the derived
view over the same backend and checker with the appended schema, and —
the model being pure — the original view is unchanged and its own row
access still resolves no transformer at or beyond its original
length N. -/
theorem append_preserves_prefix_and_view (s : List Transformer)
    (t : Transformer) (v : TableView) :
    (TransformerList.append s t).length = s.length + 1 ∧
    (∀ i, i < s.length →
      TransformerAt (TransformerList.append s t) i = TransformerAt s i) ∧
    TransformerAt (TransformerList.append s t) s.length = some t ∧
    (v.addTransformer t).transformers =
      TransformerList.append v.transformers t ∧
    (v.addTransformer t).backend = v.backend ∧
    (v.addTransformer t).check = v.check ∧
    (∀ b row i, v.transformers.length ≤ i →
      RowProxy.get v.transformers b row i = none) := by
  refine ⟨by simp [TransformerList.append], ?_, ?_, rfl, rfl, rfl, ?_⟩
  · intro i hi
    rw [TransformerAt_eq_getElem?, TransformerAt_eq_getElem?,
      TransformerList.append, List.getElem?_append, if_pos hi]
  · rw [TransformerAt_eq_getElem?, TransformerList.append]
    simp
  · intro b row i hi
    exact get_none_of_out_of_range v.transformers b row i hi

/-- C7 (witness): appending IdentityBoolean to the length-2 example
schema puts it at position 2. -/
theorem append_preserves_prefix_and_view_witness :
    TransformerAt (TransformerList.append exTs2 IdentityBoolean) 2 =
      some IdentityBoolean :=
  (append_preserves_prefix_and_view exTs2 IdentityBoolean exView).2.2.1

/-- C8: a Row Sequence constructed over a source that yields no batches,
or no valid row of which is accepted by the filter, is exhausted
immediately after construction, having consumed the whole backend; and
a construction over the already-consumed (empty) backend — which is the
state a prior full traversal leaves behind — equals the end iterator at
once. -/
theorem begin_exhausted_of_no_visible_row
    (check : Schema → Batch → Int → Bool) (src : List Batch)
    (h : ∀ b ∈ src, ∀ i : Int, 0 ≤ i → i < (b.num_rows : Int) →
      check b.schema b i = false) :
    (RowIterator.begin check src).atEnd = true ∧
    (RowIterator.begin check src).batches = [] ∧
    RowIterator.begin check [] = RowIterator.endIt [] := by
  have hempty : RowIterator.begin check [] = ⟨[], none, -1⟩ := by
    show advance_row_loop check [] none 0 = _
    exact advance_row_loop_none check [] 0
  cases src with
  | nil =>
    refine ⟨?_, ?_, ?_⟩
    · rw [hempty]
      rfl
    · rw [hempty]
    · rw [hempty]
      rfl
  | cons b rest =>
    have hb : RowIterator.begin check (b :: rest) = ⟨[], none, -1⟩ := by
      show advance_row_loop check rest (some b) 0 = _
      exact advance_row_loop_all_fail check rest (some b) 0 le_rfl
        (fun x hx => h x (List.mem_cons_of_mem _ hx))
        (fun x hx => by cases hx; exact h b (List.mem_cons_self _ _))
    refine ⟨?_, ?_, ?_⟩
    · rw [hb]
      rfl
    · rw [hb]
    · rw [hempty]
      rfl

/-- C8 (witness): with the filter MetadataEquals(process, true), a
source yielding one batch whose schema has no metadata map produces an
immediately exhausted sequence. -/
theorem begin_exhausted_of_no_visible_row_witness :
    (RowIterator.begin (MetadataFilter.check "process" "true")
      [exBatchNoMeta]).atEnd = true ∧
    (RowIterator.begin (MetadataFilter.check "process" "true")
      [exBatchNoMeta]).batches = [] ∧
    RowIterator.begin (MetadataFilter.check "process" "true") [] =
      RowIterator.endIt [] :=
  begin_exhausted_of_no_visible_row _ _ (by
    intro b hb i h0 hl
    simp only [List.mem_singleton] at hb
    subst hb
    rfl)

/-- C9: get with an index at or beyond the transformer schema length
fails — no transformer resolves (in the source, no TransformerAt
specialization matches, so the call is rejected rather than executed) —
and in particular no clamped, default or zero value is ever returned. -/
theorem get_out_of_range_fails (ts : List Transformer) (b : Batch)
    (row : Int) (i : Nat) (h : ts.length ≤ i) :
    RowProxy.get ts b row i = none :=
  get_none_of_out_of_range ts b row i h

/-- C9 (witness): index 2 on the length-2 example schema yields no
value. -/
theorem get_out_of_range_fails_witness :
    RowProxy.get exTs2 exBatch4 0 2 = none :=
  get_out_of_range_fails exTs2 exBatch4 0 2 (by decide)

/-- C10: receive_all is total and never reports a failure: it returns
exactly the successful trailing scalar reads (columns from the schema
length onward, in order, each read kept only when GetScalar is ok), so
its length is at most columnCount − schemaLength, and when the schema
is at least as long as the batch is wide it returns the empty
sequence. -/
theorem receive_all_total_skips_failures (ts : List Transformer)
    (b : Batch) (row : Int) :
    RowProxy.receive_all ts b row =
      (b.columns.drop ts.length).filterMap (fun c => getScalar c row) ∧
    (RowProxy.receive_all ts b row).length ≤
      b.columns.length - ts.length ∧
    (b.columns.length ≤ ts.length → RowProxy.receive_all ts b row = []) := by
  have heq : RowProxy.receive_all ts b row =
      (b.columns.drop ts.length).filterMap (fun c => getScalar c row) :=
    receive_all_loop_eq_filterMap b row ts.length
  refine ⟨heq, ?_, ?_⟩
  · rw [heq]
    calc ((b.columns.drop ts.length).filterMap
          (fun c => getScalar c row)).length
        ≤ (b.columns.drop ts.length).length := List.length_filterMap_le _ _
      _ = b.columns.length - ts.length := List.length_drop _ _
  · intro hle
    rw [heq, List.drop_eq_nil_of_le hle, List.filterMap_nil]

/-- C10 (witness): a schema longer than the batch is wide yields the
empty sequence rather than an error, and a failing trailing read (a
column shorter than num_rows) is silently omitted, leaving only the
successful read. -/
theorem receive_all_total_skips_failures_witness :
    RowProxy.receive_all exTs6 exBatch4 0 = [] ∧
    RowProxy.receive_all [] exBatchRagged 0 = [CValue.int32 5] :=
  ⟨(receive_all_total_skips_failures exTs6 exBatch4 0).2.2 (by decide),
   ((receive_all_total_skips_failures [] exBatchRagged 0).1).trans (by decide)⟩
